import Mathlib

/-!
# On/Off lineup-attribution engine: Lean model

Shallow embedding of the NBA on/off statistics repository:
* the per-game event builder (`process_game_raw` in the per-team scripts),
* the cache update (`update_cache`),
* the query/aggregation paths (`query_combo` in the per-team scripts and
  `calculate_player_stats` / `query_stats` in the API server `main.py`).

Modelling conventions:
* Machine integers are `Nat`/`Int`; Python floats are modelled by `ℚ`
  (the quantities involved are sums and quotients of small integers and
  the constant 0.44 = 44/100, where exact arithmetic agrees with the
  intent of the float code on the claims below).
* A Python `set` of player identifiers is modelled as a strictly
  increasing duplicate-free `List Nat`.  CPython iterates a set of small
  nonnegative ints (all below the hash-table size) in increasing numeric
  order, so `list(s)` of such a set is its sorted listing; the model fixes
  that order.  All set operations (`add`, `discard`, iteration,
  `list(s)[-5:]`) are modelled against this listing.
* Remote fetches (`get_pbp`, `get_starters`, `get_team_games`) are
  parameters to the model: a game's feed is supplied as data.
* `parse_clock` returns `Optional[int]`; actions carry that parsed value
  directly (`clock : Option Int`).
-/

namespace OnOff

/-! ## ASCII string helpers: Python `.lower()` and `in` (substring) -/

/-- ASCII lowercase of one character, as Python `.lower()` acts on the
ASCII names and type tags used by this program. -/
def lowerChar (c : Char) : Char :=
  if 'A' ≤ c ∧ c ≤ 'Z' then Char.ofNat (c.toNat + 32) else c

/-- Python `s.lower()` on ASCII strings. -/
def asciiLower (s : String) : String := ⟨s.data.map lowerChar⟩

/-- Does `s` begin with `pat`? -/
def listStarts : List Char → List Char → Bool
  | [], _ => true
  | _ :: _, [] => false
  | p :: ps, c :: cs => p == c && listStarts ps cs

/-- Substring containment on character lists: Python `pat in s`. -/
def listHas (pat : List Char) : List Char → Bool
  | [] => pat.isEmpty
  | c :: cs => listStarts pat (c :: cs) || listHas pat cs

/-- Python `pat in s` for strings. -/
def strHas (s pat : String) : Bool := listHas pat.data s.data

/-! ## Python set-of-ints model -/

/-- Python `s.add(x)` on the sorted listing of a Python set of small ints. -/
def pyInsert (x : Nat) : List Nat → List Nat
  | [] => [x]
  | y :: ys =>
    if x < y then x :: y :: ys
    else if x = y then y :: ys
    else y :: pyInsert x ys

/-- Python `s.discard(x)` on the sorted listing of a Python set. -/
def pyErase (x : Nat) : List Nat → List Nat
  | [] => []
  | y :: ys => if x = y then ys else y :: pyErase x ys

/-- Python truthiness of an optional integer (`if person_id:`):
`None` and `0` are falsy. -/
def truthy : Option Nat → Bool
  | some n => n != 0
  | none => false

/-! ## Data model -/

/-- The stat keys this program ever writes into an event's stats dict. -/
inductive StatKey
  | FGM | FGA | FG3M | FG3A | PTS | FTM | FTA | REB | TOV | AST
deriving DecidableEq, Repr

/-- A Stat Event as built by `process_game_raw` and stored in the cache:
`{player_id, lineup, stats, time, is_team_stat}`, plus the `game_id`
stamped on it by `build_cache`/`update_cache` (empty until stamped). -/
structure Event where
  player_id : Nat
  lineup : List Nat
  stats : List (StatKey × ℚ)
  time : Int
  is_team_stat : Bool
  game_id : String
deriving DecidableEq, Repr

/-- A roster entry `{'id': ..., 'name': ..., 'pos': ..., 'num': ...}`. -/
structure RosterEntry where
  id : Nat
  name : String
  pos : String
  num : String
deriving DecidableEq, Repr

/-- One play-by-play action, with the fields `process_game_raw` reads.
`clock` holds the result of `parse_clock` on the raw clock string. -/
structure Action where
  period : Nat
  clock : Option Int
  actionType : String
  subType : String
  description : String
  shotResult : String
  personId : Option Nat
  assistPersonId : Option Nat
  teamId : Option Nat
deriving DecidableEq, Repr

/-- Loop state of `process_game_raw`: the tracked lineup and the
previous period/clock used by the clock normalizer. -/
structure PState where
  lineup : List Nat
  prevPeriod : Nat
  prevClock : Int
deriving DecidableEq, Repr

/-! ## Clock normalizer (inside `process_game_raw`) -/

/-- The running clock after the period-boundary reset:
`prev_clock = 720 if period <= 4 else 300` on a period change. -/
def baseClock (s : PState) (a : Action) : Int :=
  if a.period ≠ s.prevPeriod then (if a.period ≤ 4 then 720 else 300)
  else s.prevClock

/-- The raw delta `prev_clock - clock` (0 when the clock is unparsed). -/
def rawDelta (s : PState) (a : Action) : Int :=
  match a.clock with
  | none => 0
  | some c => baseClock s a - c

/-- Elapsed seconds `time_elapsed` after the anomaly clamp:
`if time_elapsed < 0 or time_elapsed > 120: time_elapsed = 0`. -/
def elapsedTime (s : PState) (a : Action) : Int :=
  match a.clock with
  | none => 0
  | some c =>
    let d := baseClock s a - c
    if d < 0 ∨ 120 < d then 0 else d

/-- The `prev_clock` value carried to the next action. -/
def nextClock (s : PState) (a : Action) : Int :=
  match a.clock with
  | none => baseClock s a
  | some c => c

/-! ## Lineup tracker and event builder (`process_game_raw`) -/

/-- Apply one substitution to the lineup set:
`if sub_type == 'in': add; elif sub_type == 'out': discard`. -/
def subApply (stype : String) (p : Nat) (l : List Nat) : List Nat :=
  if stype == "in" then pyInsert p l
  else if stype == "out" then pyErase p l
  else l

/-- The lineup after an action: only a substitution action for the team
under processing with a truthy `personId` changes it, and an overflow
beyond 5 members is clamped to the last five of the set's listing
(`current_lineup = set(list(current_lineup)[-5:])`). -/
def newLineup (teamId : Nat) (s : PState) (a : Action) : List Nat :=
  if strHas (asciiLower a.actionType) "substitution" then
    if a.teamId == some teamId && truthy a.personId then
      let l1 := subApply (asciiLower a.subType) (a.personId.getD 0) s.lineup
      if 5 < l1.length then l1.drop (l1.length - 5) else l1
    else s.lineup
  else s.lineup

/-- A time-only event: empty stats dict, `is_team_stat = False`. -/
def mkTimeEvent (d : Int) (lineup : List Nat) (pid : Nat) : Event :=
  { player_id := pid, lineup := lineup, stats := [], time := d,
    is_team_stat := false, game_id := "" }

/-- The fan-out of one action's elapsed time: one time-only event per
player of the lineup in effect before the action, when the delta is
positive. -/
def timeEventsOf (s : PState) (a : Action) : List Event :=
  if 0 < elapsedTime s a then
    s.lineup.map (mkTimeEvent (elapsedTime s a) s.lineup)
  else []

/-- Stats dict of a field-goal action (insertion order of the source). -/
def shotStats (isMade isMissed is3pt : Bool) : List (StatKey × ℚ) :=
  if isMade then
    [(.FGM, 1), (.FGA, 1)] ++
      (if is3pt then [(.FG3M, 1), (.FG3A, 1), (.PTS, 3)] else [(.PTS, 2)])
  else if isMissed then
    [(.FGA, 1)] ++ (if is3pt then [(.FG3A, 1)] else [])
  else []

/-- The countable-statistic events of one action (empty for substitution
actions, which `continue` before stat attribution).  Stat attribution is
guarded only by membership of the acting player in the current lineup,
not by the action's team id, exactly as in the source. -/
def statEventsOf (s : PState) (a : Action) : List Event :=
  let atype := asciiLower a.actionType
  let desc := asciiLower a.description
  let shotRes := asciiLower a.shotResult
  if strHas atype "substitution" then []
  else
    let is3pt := strHas atype "3pt" || strHas desc "3pt" || strHas desc "three"
    let isMade := strHas desc "made" || shotRes == "made"
    let isMissed := strHas desc "miss" || shotRes == "missed"
    let p := a.personId.getD 0
    let onCourt := truthy a.personId && decide (p ∈ s.lineup)
    let mainEvs :=
      if onCourt && (strHas atype "2pt" || strHas atype "3pt" ||
          strHas atype "dunk" || strHas atype "layup" || strHas atype "shot") then
        let st := shotStats isMade isMissed is3pt
        if st.isEmpty then []
        else [{ player_id := p, lineup := s.lineup, stats := st, time := 0,
                is_team_stat := true, game_id := "" }]
      else if onCourt && (strHas atype "freethrow" || strHas desc "free throw") then
        let st := (StatKey.FTA, (1 : ℚ)) ::
          (if isMade || strHas desc "made" then [(.FTM, 1), (.PTS, 1)] else [])
        [{ player_id := p, lineup := s.lineup, stats := st, time := 0,
           is_team_stat := true, game_id := "" }]
      else if onCourt && strHas atype "rebound" then
        [{ player_id := p, lineup := s.lineup, stats := [(.REB, 1)], time := 0,
           is_team_stat := false, game_id := "" }]
      else if onCourt && strHas atype "turnover" then
        [{ player_id := p, lineup := s.lineup, stats := [(.TOV, 1)], time := 0,
           is_team_stat := true, game_id := "" }]
      else []
    let ap := a.assistPersonId.getD 0
    let astEvs :=
      if truthy a.assistPersonId && decide (ap ∈ s.lineup) && isMade then
        [{ player_id := ap, lineup := s.lineup, stats := [(.AST, 1)], time := 0,
           is_team_stat := false, game_id := "" }]
      else []
    mainEvs ++ astEvs

/-- One iteration of the action loop of `process_game_raw`: emitted
events (time fan-out first, computed against the pre-action lineup;
then stat attribution against the unchanged lineup of this non-sub
action) and the next loop state. -/
def stepAction (teamId : Nat) (s : PState) (a : Action) : PState × List Event :=
  ({ lineup := newLineup teamId s a, prevPeriod := a.period,
     prevClock := nextClock s a },
   timeEventsOf s a ++ statEventsOf s a)

/-- The whole action loop. -/
def runActions (teamId : Nat) (s : PState) : List Action → List Event
  | [] => []
  | a :: rest =>
    let r := stepAction teamId s a
    r.2 ++ runActions teamId r.1 rest

/-- Function `process_game_raw(game_id, team_id)`: `None` when the starting
lineup resolves to fewer than 5 identifiers or the action stream is
empty; otherwise the flat event list of the game.  `starters` is the
sorted listing of the set returned by `get_starters` (which may hold
more than 5 identifiers), and `actions` the fetched play-by-play. -/
def process_game_raw (teamId : Nat) (starters : List Nat)
    (actions : List Action) : Option (List Event) :=
  if starters.length < 5 then none
  else if actions.isEmpty then none
  else some (runActions teamId { lineup := starters, prevPeriod := 0, prevClock := 720 } actions)

/-! ## Query engine -/

/-- The event-inclusion test of both query paths:
`on_ids.issubset(lineup)` and `not off_ids.intersection(lineup)`. -/
def passFilter (onIds offIds : List Nat) (ev : Event) : Bool :=
  onIds.all (fun p => decide (p ∈ ev.lineup)) &&
    !(offIds.any (fun p => decide (p ∈ ev.lineup)))

/-- The events surviving the on/off filter. -/
def filteredEvents (events : List Event) (onIds offIds : List Nat) : List Event :=
  events.filter (passFilter onIds offIds)

/-- Lookup `ev['stats'].get(k, 0)` / `k in ev['stats']` lookup with default 0. -/
def getStat (stats : List (StatKey × ℚ)) (k : StatKey) : ℚ :=
  ((stats.find? (fun q => q.1 == k)).map (fun q => q.2)).getD 0

/-- Accumulator `player_time[pid]`: seconds accrued by `pid` over the filtered events. -/
def playerTimeQ (events : List Event) (onIds offIds : List Nat) (pid : Nat) : ℚ :=
  ((filteredEvents events onIds offIds).map
    (fun e => if e.player_id = pid then (e.time : ℚ) else 0)).sum

/-- Accumulator `player_stats[pid][k]` over the filtered events. -/
def playerStatQ (events : List Event) (onIds offIds : List Nat)
    (pid : Nat) (k : StatKey) : ℚ :=
  ((filteredEvents events onIds offIds).map
    (fun e => if e.player_id = pid then getStat e.stats k else 0)).sum

/-- Accumulator `player_team_stats[pid][k]` (k ∈ {FGA, FTA, TOV}): team-possession
inputs of filtered `is_team_stat` events, credited to every player of
the event's lineup. -/
def teamStatQ (events : List Event) (onIds offIds : List Nat)
    (pid : Nat) (k : StatKey) : ℚ :=
  ((filteredEvents events onIds offIds).map
    (fun e => if e.is_team_stat && decide (pid ∈ e.lineup)
              then getStat e.stats k else 0)).sum

/-- Function `calculate_usg` of the per-team scripts (guard `team_usage <= 0`). -/
def calculate_usg (pfga pfta ptov tfga tfta ttov : ℚ) : ℚ :=
  let team_usage := tfga + (44 / 100) * tfta + ttov
  if team_usage ≤ 0 then 0
  else 100 * (pfga + (44 / 100) * pfta + ptov) / team_usage

/-- Function `calculate_usg` of the API server `main.py` (guard `team_poss == 0`). -/
def calculate_usg_api (fga fta tov tfga tfta ttov : ℚ) : ℚ :=
  let player_poss := fga + (44 / 100) * fta + tov
  let team_poss := tfga + (44 / 100) * tfta + ttov
  if team_poss = 0 then 0 else 100 * player_poss / team_poss

/-- Floor of a rational, executably. -/
def ratFloor (q : ℚ) : Int := q.num.fdiv (q.den : Int)

/-- Python `round(x, 1)` (round-half-to-even at one decimal), on the
exact rational model of the float value. -/
def pyRound1 (q : ℚ) : ℚ :=
  let t := q * 10
  let f := ratFloor t
  let frac := t - (f : ℚ)
  let n : Int :=
    if frac < 1 / 2 then f
    else if 1 / 2 < frac then f + 1
    else if f % 2 = 0 then f else f + 1
  (n : ℚ) / 10

/-- One output row of a query.  The per-team script prints the row under
the roster name only; `pid` records the roster entry the row was built
from (the API server's rows carry it as `'id'`). -/
structure QRow where
  pid : Nat
  name : String
  pos : String
  min : ℚ
  usg : ℚ
  pts : ℚ
  reb : ℚ
  ast : ℚ
  fg3m : ℚ
  fg3a : ℚ
  fg3_pct : ℚ
  fgm : ℚ
  fga : ℚ
  fg_pct : ℚ
  tov : ℚ
  pra : ℚ
  pr : ℚ
  pa : ℚ
deriving DecidableEq, Repr

/-- Stable descending sort by a rational key (Python `list.sort` with
`reverse=True` is stable): insert each element after existing elements
with a key not below its own. -/
def insertDescBy {α : Type} (key : α → ℚ) (x : α) : List α → List α
  | [] => [x]
  | y :: ys => if key y < key x then x :: y :: ys else y :: insertDescBy key x ys

/-- Stable descending sort by key. -/
def sortDescBy {α : Type} (key : α → ℚ) (l : List α) : List α :=
  l.foldl (fun acc x => insertDescBy key x acc) []

/-- The row built by `query_combo` for one roster entry. -/
def comboRow (events : List Event) (onIds offIds : List Nat)
    (t : RosterEntry) : QRow :=
  let mins := playerTimeQ events onIds offIds t.id / 60
  let mult := if 0 < mins then 36 / mins else 0
  let stat := fun k => playerStatQ events onIds offIds t.id k
  let fgm := stat .FGM
  let fga := stat .FGA
  let fg3m := stat .FG3M
  let fg3a := stat .FG3A
  let fta := stat .FTA
  let tov := stat .TOV
  let pts := stat .PTS
  let reb := stat .REB
  let ast := stat .AST
  let fg_pct := if 0 < fga then fgm / fga * 100 else 0
  let fg3_pct := if 0 < fg3a then fg3m / fg3a * 100 else 0
  let usg := calculate_usg fga fta tov
    (teamStatQ events onIds offIds t.id .FGA)
    (teamStatQ events onIds offIds t.id .FTA)
    (teamStatQ events onIds offIds t.id .TOV)
  { pid := t.id, name := t.name, pos := "", min := mins, usg := usg,
    pts := pts * mult, reb := reb * mult, ast := ast * mult,
    fg3m := fg3m * mult, fg3a := fg3a * mult, fg3_pct := fg3_pct,
    fgm := fgm * mult, fga := fga * mult, fg_pct := fg_pct,
    tov := tov * mult, pra := (pts + reb + ast) * mult,
    pr := (pts + reb) * mult, pa := (pts + ast) * mult }

/-- The result rows of `query_combo`: roster entries named in the off
filter are skipped outright, entries under 5 filtered minutes are
suppressed, and rows are ordered by descending floor time. -/
def queryComboRows (events : List Event) (roster : List RosterEntry)
    (onIds offIds : List Nat) : List QRow :=
  sortDescBy (fun r => r.min)
    (roster.filterMap (fun t =>
      if t.id ∈ offIds then none
      else if playerTimeQ events onIds offIds t.id / 60 < 5 then none
      else some (comboRow events onIds offIds t)))

/-- The row built by `calculate_player_stats` in `main.py` for one
roster entry (fields rounded to one decimal as in the source). -/
def apiRow (events : List Event) (onIds offIds : List Nat)
    (t : RosterEntry) : QRow :=
  let mins := playerTimeQ events onIds offIds t.id / 60
  let mult := if 0 < mins then 36 / mins else 0
  let stat := fun k => playerStatQ events onIds offIds t.id k
  let fgm := stat .FGM
  let fga := stat .FGA
  let fg3m := stat .FG3M
  let fg3a := stat .FG3A
  let fta := stat .FTA
  let tov := stat .TOV
  let pts := stat .PTS
  let reb := stat .REB
  let ast := stat .AST
  let usg := calculate_usg_api fga fta tov
    (teamStatQ events onIds offIds t.id .FGA)
    (teamStatQ events onIds offIds t.id .FTA)
    (teamStatQ events onIds offIds t.id .TOV)
  { pid := t.id, name := t.name, pos := t.pos,
    min := pyRound1 mins, usg := pyRound1 usg,
    pts := pyRound1 (pts * mult), reb := pyRound1 (reb * mult),
    ast := pyRound1 (ast * mult),
    fg3m := pyRound1 (fg3m * mult), fg3a := pyRound1 (fg3a * mult),
    fg3_pct := if 0 < fg3a then pyRound1 (100 * fg3m / fg3a) else 0,
    fgm := pyRound1 (fgm * mult), fga := pyRound1 (fga * mult),
    fg_pct := if 0 < fga then pyRound1 (100 * fgm / fga) else 0,
    tov := pyRound1 (tov * mult),
    pra := pyRound1 ((pts + reb + ast) * mult),
    pr := pyRound1 ((pts + reb) * mult),
    pa := pyRound1 ((pts + ast) * mult) }

/-- Function `calculate_player_stats(events, roster, on_ids, off_ids,
min_minutes)`: the results dict in roster (insertion) order.  There is
no off-filter check here; exclusion of off players relies on them
accruing no qualifying minutes. -/
def calcPlayerStats (events : List Event) (roster : List RosterEntry)
    (onIds offIds : List Nat) (minMinutes : ℚ) : List QRow :=
  roster.filterMap (fun t =>
    if playerTimeQ events onIds offIds t.id / 60 < minMinutes then none
    else some (apiRow events onIds offIds t))

/-! ## Name resolution and `query_stats` (API server `main.py`) -/

/-- Function `get_player_id(name, roster)` of `main.py`: the first roster entry
whose lowercased name contains the lowercased query as a substring. -/
def get_player_id_api (name : String) (roster : List RosterEntry) : Option Nat :=
  (roster.find? (fun p => strHas (asciiLower p.name) (asciiLower name))).map
    (fun p => p.id)

/-- The id set built by the resolution loops of `query_stats`: a
resolved truthy id is added; an unresolved name is skipped silently. -/
def resolveIds (names : List String) (roster : List RosterEntry) : List Nat :=
  names.foldl (fun acc n =>
    match get_player_id_api n roster with
    | some p => if p ≠ 0 then pyInsert p acc else acc
    | none => acc) []

/-- The display names collected alongside the resolved ids. -/
def resolveNames (names : List String) (roster : List RosterEntry) : List String :=
  names.foldl (fun acc n =>
    match get_player_id_api n roster with
    | some p =>
      if p ≠ 0 then
        acc ++ [(((roster.find? (fun q => q.id == p)).map (fun q => q.name)).getD "")]
      else acc
    | none => acc) []

/-- Set union `on_ids | off_ids`. -/
def pyUnion (a b : List Nat) : List Nat :=
  b.foldl (fun acc x => pyInsert x acc) a

/-- One comparison row of `query_stats`. -/
structure CRow where
  id : Nat
  name : String
  min_with : ℚ
  usg_diff : ℚ
  pts_diff : ℚ
  reb_diff : ℚ
  ast_diff : ℚ
  fg3a_diff : ℚ
  fga_diff : ℚ
  pra_diff : ℚ
  pr_diff : ℚ
  pa_diff : ℚ
deriving DecidableEq, Repr

/-- The signed primary-minus-baseline differences for one player. -/
def mkCRow (r b : QRow) : CRow :=
  { id := r.pid, name := r.name, min_with := pyRound1 b.min,
    usg_diff := pyRound1 (r.usg - b.usg),
    pts_diff := pyRound1 (r.pts - b.pts),
    reb_diff := pyRound1 (r.reb - b.reb),
    ast_diff := pyRound1 (r.ast - b.ast),
    fg3a_diff := pyRound1 (r.fg3a - b.fg3a),
    fga_diff := pyRound1 (r.fga - b.fga),
    pra_diff := pyRound1 (r.pra - b.pra),
    pr_diff := pyRound1 (r.pr - b.pr),
    pa_diff := pyRound1 (r.pa - b.pa) }

/-- The per-team-season snapshot: `{team_id, games_processed, roster,
events}` (plus team/season/built_at strings not modelled). -/
structure Cache where
  team_id : Nat
  games_processed : Nat
  roster : List RosterEntry
  events : List Event
deriving DecidableEq, Repr

/-- The response assembled by `query_stats`. -/
structure QueryOut where
  games : Nat
  filterOn : List String
  filterOff : List String
  rosterOut : List (Nat × String)
  players : List QRow
  comparison : List CRow
deriving DecidableEq, Repr

/-- Function `query_stats(team, players_on, players_off)` of `main.py`, given the
loaded cache: resolve names (silently skipping unresolved ones), compute
the primary stats, and, when the off set is non-empty, the baseline
(off players flipped to on) and the top-10 comparison rows. -/
def query_stats (cache : Cache) (playersOn playersOff : List String) : QueryOut :=
  let events := cache.events
  let roster := cache.roster
  let onIds := resolveIds playersOn roster
  let offIds := resolveIds playersOff roster
  let mainStats := calcPlayerStats events roster onIds offIds 5
  let results := sortDescBy (fun r => r.min) mainStats
  let comparison :=
    if offIds.isEmpty then []
    else
      let baseline := calcPlayerStats events roster (pyUnion onIds offIds) [] 5
      let comp := mainStats.filterMap (fun r =>
        match baseline.find? (fun b => b.pid == r.pid) with
        | some b => if r.pid ∈ offIds then none else some (mkCRow r b)
        | none => none)
      (sortDescBy (fun c => c.min_with) comp).take 10
  { games := cache.games_processed,
    filterOn := resolveNames playersOn roster,
    filterOff := resolveNames playersOff roster,
    rosterOut := roster.map (fun p => (p.id, p.name)),
    players := results,
    comparison := comparison }

/-! ## Roster reconstruction and `update_cache` -/

/-- Player ids in order of first appearance in the event list (the
insertion order of the `player_time` dict). -/
def firstSeen (events : List Event) : List Nat :=
  events.foldl (fun acc e =>
    if e.player_id ∈ acc then acc else acc ++ [e.player_id]) []

/-- Total seconds accrued by a player over the whole event list. -/
def totalTime (events : List Event) (pid : Nat) : ℚ :=
  (events.map (fun e => if e.player_id = pid then (e.time : ℚ) else 0)).sum

/-- Function `get_player_name`: lookup in the player registry (`nba_api` static
player table, supplied as data), with the source's fallback label. -/
def get_player_name (registry : List (Nat × String)) (pid : Nat) : String :=
  match registry.find? (fun q => q.1 == pid) with
  | some q => q.2
  | none => "Unknown-" ++ toString pid

/-- Function `build_roster_from_events`: every player with positive accrued time,
ordered by descending cumulative time (stable). -/
def build_roster_from_events (registry : List (Nat × String))
    (events : List Event) : List RosterEntry :=
  sortDescBy (fun t => totalTime events t.id)
    ((firstSeen events).filterMap (fun pid =>
      if 0 < totalTime events pid then
        some { id := pid, name := get_player_name registry pid,
               pos := "", num := "" }
      else none))

/-- Stamp a game id onto an event (`ev['game_id'] = gid`). -/
def stampGame (gid : String) (e : Event) : Event := { e with game_id := gid }

/-- A game's feed: the `get_starters` set (as its sorted listing) and
the play-by-play actions. -/
structure GameFeed where
  starters : List Nat
  actions : List Action

/-- The stamped events contributed by one game during a build/update:
nothing when `process_game_raw` returns `None` or an empty list
(`if game_events:`). -/
def newEventsFor (teamId : Nat) (feed : String → GameFeed) (gid : String) :
    List Event :=
  match process_game_raw teamId (feed gid).starters (feed gid).actions with
  | some evs => if evs.isEmpty then [] else evs.map (stampGame gid)
  | none => []

/-- Is a game id already represented among the stored events?
(`existing_game_ids` membership.) -/
def hasGame (events : List Event) (gid : String) : Bool :=
  events.any (fun e => e.game_id == gid)

/-- Function `update_cache(team, season)`: collect the game ids already present
among stored events, diff against the season schedule, process only the
new games, append their events, and rebuild the roster from the merged
event set.  With an empty schedule or no new games the snapshot is
returned untouched (the source returns before writing). -/
def update_cache (teamId : Nat) (registry : List (Nat × String))
    (schedule : List String) (feed : String → GameFeed) (c : Cache) : Cache :=
  if schedule.isEmpty then c
  else
    let newIds := schedule.filter (fun gid => !hasGame c.events gid)
    if newIds.isEmpty then c
    else
      let newEvents := (newIds.map (newEventsFor teamId feed)).flatten
      { team_id := teamId,
        games_processed := c.games_processed +
          newIds.countP (fun gid => !(newEventsFor teamId feed gid).isEmpty),
        roster := build_roster_from_events registry (c.events ++ newEvents),
        events := c.events ++ newEvents }

/-! ## Helper lemmas about the event builder -/

lemma elapsed_bounds (s : PState) (a : Action) :
    0 ≤ elapsedTime s a ∧ elapsedTime s a ≤ 120 := by
  unfold elapsedTime
  cases a.clock with
  | none => exact ⟨le_refl 0, by norm_num⟩
  | some c =>
    simp only []
    split
    · exact ⟨le_refl 0, by norm_num⟩
    · next h => push_neg at h; omega

lemma mem_timeEventsOf {s : PState} {a : Action} {e : Event}
    (h : e ∈ timeEventsOf s a) :
    e.lineup = s.lineup ∧ e.player_id ∈ s.lineup ∧ e.stats = [] ∧
    e.time = elapsedTime s a ∧ e.is_team_stat = false := by
  unfold timeEventsOf at h
  split at h
  · rw [List.mem_map] at h
    obtain ⟨p, hp, rfl⟩ := h
    exact ⟨rfl, hp, rfl, rfl, rfl⟩
  · simp at h

lemma mem_statEventsOf {s : PState} {a : Action} {e : Event}
    (h : e ∈ statEventsOf s a) :
    e.lineup = s.lineup ∧ e.player_id ∈ s.lineup ∧ e.time = 0 ∧
    e.stats ≠ [] := by
  simp only [statEventsOf] at h
  split at h
  · simp at h
  · rw [List.mem_append] at h
    rcases h with h | h
    · split at h
      · next hc =>
        split at h
        · simp at h
        · next hst =>
          simp only [List.mem_singleton] at h
          subst h
          simp only [Bool.and_eq_true, decide_eq_true_iff] at hc
          refine ⟨rfl, hc.1.2, rfl, ?_⟩
          intro hnil
          exact hst (List.isEmpty_iff.mpr hnil)
      · split at h
        · next hc =>
          simp only [List.mem_singleton] at h
          subst h
          simp only [Bool.and_eq_true, decide_eq_true_iff] at hc
          exact ⟨rfl, hc.1.2, rfl, by simp⟩
        · split at h
          · next hc =>
            simp only [List.mem_singleton] at h
            subst h
            simp only [Bool.and_eq_true, decide_eq_true_iff] at hc
            exact ⟨rfl, hc.1.2, rfl, by simp⟩
          · split at h
            · next hc =>
              simp only [List.mem_singleton] at h
              subst h
              simp only [Bool.and_eq_true, decide_eq_true_iff] at hc
              exact ⟨rfl, hc.1.2, rfl, by simp⟩
            · simp at h
    · split at h
      · next hc =>
        simp only [List.mem_singleton] at h
        subst h
        simp only [Bool.and_eq_true, decide_eq_true_iff] at hc
        exact ⟨rfl, hc.1.2, rfl, by simp⟩
      · simp at h

lemma step_event_facts {tid : Nat} {s : PState} {a : Action} {e : Event}
    (h : e ∈ (stepAction tid s a).2) :
    e.lineup = s.lineup ∧ e.player_id ∈ s.lineup ∧
    0 ≤ e.time ∧ e.time ≤ 120 := by
  have h' : e ∈ timeEventsOf s a ++ statEventsOf s a := h
  rw [List.mem_append] at h'
  rcases h' with h' | h'
  · obtain ⟨h1, h2, _, h4, _⟩ := mem_timeEventsOf h'
    refine ⟨h1, h2, ?_⟩
    rw [h4]
    exact elapsed_bounds s a
  · obtain ⟨h1, h2, h3, _⟩ := mem_statEventsOf h'
    refine ⟨h1, h2, ?_⟩
    rw [h3]
    norm_num

lemma newLineup_length {tid : Nat} {s : PState} {a : Action}
    (h : s.lineup.length ≤ 5) : (newLineup tid s a).length ≤ 5 := by
  unfold newLineup
  split
  · split
    · simp only []
      split
      · next hgt => rw [List.length_drop]; omega
      · next hle => push_neg at hle; exact hle
    · exact h
  · exact h

lemma runActions_forall {tid : Nat} (Inv : PState → Prop) (P : Event → Prop)
    (hs : ∀ s a, Inv s → Inv (stepAction tid s a).1)
    (he : ∀ s a e, Inv s → e ∈ (stepAction tid s a).2 → P e) :
    ∀ (acts : List Action) (s : PState), Inv s →
      ∀ e ∈ runActions tid s acts, P e := by
  intro acts
  induction acts with
  | nil => intro s _ e hmem; simp [runActions] at hmem
  | cons a rest ih =>
    intro s hInv e hmem
    rw [show runActions tid s (a :: rest)
        = (stepAction tid s a).2 ++ runActions tid (stepAction tid s a).1 rest
        from rfl] at hmem
    rw [List.mem_append] at hmem
    rcases hmem with hmem | hmem
    · exact he s a e hInv hmem
    · exact ih (stepAction tid s a).1 (hs s a hInv) e hmem

/-! ## C4: the clock-delta clamp and the time bounds on every event -/

/-- C4: a computed elapsed-time delta outside `[0, 120]` seconds is
replaced by 0, and no Stat Event of a processed game carries a negative
`time_seconds` or one greater than 120. -/
theorem clock_clamp_bounds (s : PState) (a : Action) (tid : Nat)
    (starters : List Nat) (actions : List Action) :
    ((rawDelta s a < 0 ∨ 120 < rawDelta s a) → elapsedTime s a = 0) ∧
    ∀ e ∈ (process_game_raw tid starters actions).getD [],
      0 ≤ e.time ∧ e.time ≤ 120 := by
  constructor
  · intro h
    unfold rawDelta at h
    unfold elapsedTime
    cases hc : a.clock with
    | none => rfl
    | some c =>
      rw [hc] at h
      simp only []
      rw [if_pos h]
  · unfold process_game_raw
    split
    · simp
    · split
      · simp
      · simp only [Option.getD_some]
        exact runActions_forall (fun _ => True) _ (fun _ _ _ => trivial)
          (fun s' a' e _ he => (step_event_facts he).2.2) actions _ trivial

/-- Witness for C4 at a concrete game: an action at clock 700 of period
1 yields time events of 20 seconds, within bounds. -/
theorem clock_clamp_bounds_witness :
    0 ≤ (mkTimeEvent 20 [1, 2, 3, 4, 5] 1).time ∧
    (mkTimeEvent 20 [1, 2, 3, 4, 5] 1).time ≤ 120 :=
  (clock_clamp_bounds { lineup := [1, 2, 3, 4, 5], prevPeriod := 0, prevClock := 720 }
    { period := 1, clock := some 700, actionType := "jumpshot", subType := "",
      description := "", shotResult := "", personId := none,
      assistPersonId := none, teamId := none }
    10 [1, 2, 3, 4, 5]
    [{ period := 1, clock := some 700, actionType := "timeout", subType := "",
       description := "", shotResult := "", personId := none,
       assistPersonId := none, teamId := none }]).2
    (mkTimeEvent 20 [1, 2, 3, 4, 5] 1) (by decide)

/-! ## C10: every emitted event's player is in its own lineup -/

/-- C10: every Stat Event emitted by game processing has its
`player_id` contained in its own `lineup` set. -/
theorem event_player_in_lineup (tid : Nat) (starters : List Nat)
    (actions : List Action) :
    ∀ e ∈ (process_game_raw tid starters actions).getD [],
      e.player_id ∈ e.lineup := by
  unfold process_game_raw
  split
  · simp
  · split
    · simp
    · simp only [Option.getD_some]
      refine runActions_forall (fun _ => True) _ (fun _ _ _ => trivial)
        ?_ actions _ trivial
      intro s a e _ he
      obtain ⟨h1, h2, _⟩ := step_event_facts he
      rw [h1]
      exact h2

/-- Witness for C10 at a concrete game. -/
theorem event_player_in_lineup_witness :
    (mkTimeEvent 20 [1, 2, 3, 4, 5] 1).player_id ∈
      (mkTimeEvent 20 [1, 2, 3, 4, 5] 1).lineup :=
  event_player_in_lineup 10 [1, 2, 3, 4, 5]
    [{ period := 1, clock := some 700, actionType := "timeout", subType := "",
       description := "", shotResult := "", personId := none,
       assistPersonId := none, teamId := none }]
    (mkTimeEvent 20 [1, 2, 3, 4, 5] 1) (by decide)

/-! ## C2: lineup cardinality on emitted events -/

/-- A substitution-out of player 5 by the processed team. -/
def cexSubOut : Action :=
  { period := 1, clock := some 700, actionType := "substitution",
    subType := "out", description := "", shotResult := "",
    personId := some 5, assistPersonId := none, teamId := some 10 }

/-- A later dead-ball action with elapsed time and no statistic. -/
def cexIdle : Action :=
  { period := 1, clock := some 690, actionType := "timeout", subType := "",
    description := "", shotResult := "", personId := none,
    assistPersonId := none, teamId := none }

/-- Counterexample to C2: a processed game whose substitution stream
has an `out` without a matching `in` emits Stat Events whose lineup has
cardinality 4, not 5. -/
theorem lineup_card_counterexample :
    ∃ e ∈ (process_game_raw 10 [1, 2, 3, 4, 5] [cexSubOut, cexIdle]).getD [],
      e.lineup.length ≠ 5 := by decide

/-- C2 as amended: for a game processed from a starting lineup of
exactly 5 identifiers, every emitted Stat Event carries a non-empty
lineup of cardinality at most 5; an unmatched `out` substitution can
drop the cardinality below 5, so exactly 5 is not guaranteed. -/
theorem lineup_card_amended (tid : Nat) (starters : List Nat)
    (actions : List Action) (evs : List Event)
    (h5 : starters.length = 5)
    (hrun : process_game_raw tid starters actions = some evs) :
    ∀ e ∈ evs, 1 ≤ e.lineup.length ∧ e.lineup.length ≤ 5 := by
  unfold process_game_raw at hrun
  split at hrun
  · exact absurd hrun (by simp)
  · split at hrun
    · exact absurd hrun (by simp)
    · injection hrun with hrun
      subst hrun
      refine runActions_forall (fun st => st.lineup.length ≤ 5) _
        (fun s a hInv => newLineup_length hInv) ?_ actions _ (by simp [h5])
      intro s a e hInv he
      obtain ⟨h1, h2, _⟩ := step_event_facts he
      rw [h1]
      exact ⟨List.length_pos_of_mem h2, hInv⟩

/-- Witness for the amended C2 at a concrete game. -/
theorem lineup_card_amended_witness :
    1 ≤ (mkTimeEvent 30 [1, 2, 3, 4, 5] 1).lineup.length ∧
    (mkTimeEvent 30 [1, 2, 3, 4, 5] 1).lineup.length ≤ 5 :=
  lineup_card_amended 10 [1, 2, 3, 4, 5] [cexIdle]
    ([1, 2, 3, 4, 5].map (mkTimeEvent 30 [1, 2, 3, 4, 5]))
    (by decide) (by decide)
    (mkTimeEvent 30 [1, 2, 3, 4, 5] 1) (by decide)

/-! ## C3: the time fan-out of one action -/

/-- C3: whenever an action's computed elapsed time is positive, the
events it emits with an empty stat-delta map are exactly one per player
of the lineup in effect before the action — each carrying the computed
delta as `time_seconds` and `counts_toward_team_possessions = false` —
and every on-court player receives exactly one such event. -/
theorem time_fanout (tid : Nat) (s : PState) (a : Action)
    (hd : 0 < elapsedTime s a) (hnd : s.lineup.Nodup) :
    (stepAction tid s a).2.filter (fun e => e.stats.isEmpty)
      = s.lineup.map (mkTimeEvent (elapsedTime s a) s.lineup)
    ∧ ∀ p ∈ s.lineup,
        ((stepAction tid s a).2.filter
          (fun e => e.stats.isEmpty && e.player_id == p)).length = 1 := by
  have hstep : (stepAction tid s a).2 = timeEventsOf s a ++ statEventsOf s a := rfl
  have htime : timeEventsOf s a
      = s.lineup.map (mkTimeEvent (elapsedTime s a) s.lineup) := by
    unfold timeEventsOf
    rw [if_pos hd]
  constructor
  · have h1 : (statEventsOf s a).filter (fun e => e.stats.isEmpty) = [] := by
      rw [List.filter_eq_nil_iff]
      intro e he
      obtain ⟨_, _, _, hne⟩ := mem_statEventsOf he
      simp only [Bool.not_eq_true]
      rw [← Bool.not_eq_true, List.isEmpty_iff]
      exact hne
    rw [hstep, List.filter_append, htime, h1, List.append_nil]
    rw [List.filter_eq_self]
    intro e he
    rw [List.mem_map] at he
    obtain ⟨p, _, rfl⟩ := he
    rfl
  · intro p hp
    have h2 : (statEventsOf s a).filter
        (fun e => e.stats.isEmpty && e.player_id == p) = [] := by
      rw [List.filter_eq_nil_iff]
      intro e he
      obtain ⟨_, _, _, hne⟩ := mem_statEventsOf he
      intro hq
      rw [Bool.and_eq_true] at hq
      exact hne (List.isEmpty_iff.mp hq.1)
    rw [hstep, List.filter_append, htime, h2, List.append_nil]
    rw [List.filter_map, List.length_map]
    have hfun : ((fun e : Event => e.stats.isEmpty && e.player_id == p) ∘
        mkTimeEvent (elapsedTime s a) s.lineup) = (fun x => x == p) := by
      funext x
      rfl
    rw [hfun, ← List.countP_eq_length_filter]
    exact List.count_eq_one_of_mem hnd hp

/-- A state and action used to witness C3 concretely. -/
def wState : PState := { lineup := [1, 2, 3, 4, 5], prevPeriod := 0, prevClock := 720 }

/-- Witness for C3: the concrete action `cexIdle` elapses 30 seconds
from `wState` and fans out to one time-only event per on-court player. -/
theorem time_fanout_witness :
    (stepAction 10 wState cexIdle).2.filter (fun e => e.stats.isEmpty)
      = wState.lineup.map (mkTimeEvent (elapsedTime wState cexIdle) wState.lineup)
    ∧ ((stepAction 10 wState cexIdle).2.filter
        (fun e => e.stats.isEmpty && e.player_id == 1)).length = 1 :=
  ⟨(time_fanout 10 wState cexIdle (by decide) (by decide)).1,
   (time_fanout 10 wState cexIdle (by decide) (by decide)).2 1 (by decide)⟩

/-! ## C5: the lineup-overflow clamp -/

/-- A substitution-in of player 1 by the processed team. -/
def cexSubIn : Action :=
  { period := 1, clock := some 720, actionType := "substitution",
    subType := "in", description := "", shotResult := "",
    personId := some 1, assistPersonId := none, teamId := some 10 }

/-- A tracked-lineup state already holding players 2–6. -/
def cexOverState : PState :=
  { lineup := [2, 3, 4, 5, 6], prevPeriod := 1, prevClock := 720 }

/-- Counterexample to C5: substituting player 1 into the lineup
{2,3,4,5,6} overflows to six members, and the clamp
`set(list(current_lineup)[-5:])` keeps {2,3,4,5,6} — evicting player 1,
the most-recently-added identifier, because a Python set is iterated in
hash order (numeric order for these small ids), not insertion order. -/
theorem clamp_recent_counterexample :
    (stepAction 10 cexOverState cexSubIn).1.lineup = [2, 3, 4, 5, 6] ∧
    1 ∉ (stepAction 10 cexOverState cexSubIn).1.lineup := by decide

/-- C5 as amended: whenever a substitution leaves the tracked lineup
with more than 5 members, the tracker reduces it to exactly 5
identifiers drawn from the overflowing lineup — the last five of the
set's iteration order, which need not be the 5 most-recently-added. -/
theorem clamp_overflow_amended (tid : Nat) (s : PState) (a : Action)
    (hsub : strHas (asciiLower a.actionType) "substitution" = true)
    (hteam : (a.teamId == some tid && truthy a.personId) = true)
    (hover : 5 < (subApply (asciiLower a.subType) (a.personId.getD 0)
      s.lineup).length) :
    (newLineup tid s a).length = 5 ∧
    ∀ x ∈ newLineup tid s a,
      x ∈ subApply (asciiLower a.subType) (a.personId.getD 0) s.lineup := by
  unfold newLineup
  rw [if_pos hsub, if_pos hteam]
  simp only []
  rw [if_pos hover]
  constructor
  · rw [List.length_drop]
    omega
  · intro x hx
    exact List.mem_of_mem_drop hx

/-- Witness for the amended C5 at the concrete overflow above. -/
theorem clamp_overflow_amended_witness :
    (newLineup 10 cexOverState cexSubIn).length = 5 ∧
    2 ∈ subApply (asciiLower cexSubIn.subType)
      (cexSubIn.personId.getD 0) cexOverState.lineup :=
  ⟨(clamp_overflow_amended 10 cexOverState cexSubIn
      (by decide) (by decide) (by decide)).1,
   (clamp_overflow_amended 10 cexOverState cexSubIn
      (by decide) (by decide) (by decide)).2 2 (by decide)⟩

/-! ## Helper lemmas about the query engine -/

lemma mem_insertDescBy {α : Type} (key : α → ℚ) (x : α) (l : List α) (y : α) :
    y ∈ insertDescBy key x l ↔ y = x ∨ y ∈ l := by
  induction l with
  | nil => simp [insertDescBy]
  | cons z zs ih =>
    unfold insertDescBy
    split
    · simp [List.mem_cons]
    · rw [List.mem_cons, ih, List.mem_cons]
      tauto

lemma mem_sortDescBy {α : Type} (key : α → ℚ) (l : List α) (y : α) :
    y ∈ sortDescBy key l ↔ y ∈ l := by
  unfold sortDescBy
  suffices h : ∀ (l acc : List α),
      (y ∈ l.foldl (fun acc x => insertDescBy key x acc) acc ↔
        y ∈ acc ∨ y ∈ l) by
    rw [h]
    simp
  intro l
  induction l with
  | nil => intro acc; simp
  | cons z zs ih =>
    intro acc
    rw [List.foldl_cons, ih, mem_insertDescBy, List.mem_cons]
    tauto

lemma passFilter_false_of_both {onIds offIds : List Nat} {p : Nat}
    (hp : p ∈ onIds) (hq : p ∈ offIds) (ev : Event) :
    passFilter onIds offIds ev = false := by
  unfold passFilter
  by_cases hmem : p ∈ ev.lineup
  · have h : offIds.any (fun q => decide (q ∈ ev.lineup)) = true :=
      List.any_eq_true.mpr ⟨p, hq, by simp [hmem]⟩
    rw [h]
    simp
  · have h : onIds.all (fun q => decide (q ∈ ev.lineup)) = false := by
      rw [← Bool.not_eq_true, List.all_eq_true]
      intro hall
      exact hmem (by simpa using hall p hp)
    rw [h]
    simp

lemma filtered_nil_of_both {events : List Event} {onIds offIds : List Nat}
    {p : Nat} (hp : p ∈ onIds) (hq : p ∈ offIds) :
    filteredEvents events onIds offIds = [] := by
  unfold filteredEvents
  rw [List.filter_eq_nil_iff]
  intro e _
  rw [passFilter_false_of_both hp hq]
  simp

lemma playerTimeQ_eq_zero_of_nil {events : List Event}
    {onIds offIds : List Nat} {pid : Nat}
    (h : filteredEvents events onIds offIds = []) :
    playerTimeQ events onIds offIds pid = 0 := by
  unfold playerTimeQ
  rw [h]
  rfl

lemma playerTimeQ_off_zero {events : List Event} {onIds offIds : List Nat}
    {P : Nat} (hP : P ∈ offIds)
    (hinv : ∀ e ∈ events, e.player_id ∈ e.lineup) :
    playerTimeQ events onIds offIds P = 0 := by
  unfold playerTimeQ
  apply List.sum_eq_zero
  intro x hx
  rw [List.mem_map] at hx
  obtain ⟨e, he, rfl⟩ := hx
  unfold filteredEvents at he
  rw [List.mem_filter] at he
  obtain ⟨hev, hpass⟩ := he
  by_cases hpid : e.player_id = P
  · exfalso
    unfold passFilter at hpass
    rw [Bool.and_eq_true] at hpass
    have hoff : offIds.any (fun q => decide (q ∈ e.lineup)) = true :=
      List.any_eq_true.mpr ⟨P, hP, by simp [hpid ▸ hinv e hev]⟩
    rw [hoff] at hpass
    simp at hpass
  · rw [if_neg hpid]

/-! ## C1: the on/off inclusion test and overlapping filters -/

/-- C1: for every filter, an event is included in the aggregation iff
the on-set is a subset of its lineup and the off-set misses its lineup
entirely (stated unconditionally, for arbitrary — in particular
disjoint — filters); consequently a filter naming the same player in
both sets passes no event and yields an empty result in both query
paths. -/
theorem filter_semantics (onIds offIds : List Nat) (ev : Event)
    (events : List Event) (roster : List RosterEntry) (p : Nat) :
    (passFilter onIds offIds ev = true ↔
      ((∀ q ∈ onIds, q ∈ ev.lineup) ∧ ∀ q ∈ offIds, q ∉ ev.lineup))
    ∧ (p ∈ onIds → p ∈ offIds →
        filteredEvents events onIds offIds = []
        ∧ queryComboRows events roster onIds offIds = []
        ∧ calcPlayerStats events roster onIds offIds 5 = []) := by
  constructor
  · unfold passFilter
    simp [List.all_eq_true, List.any_eq_true]
  · intro hp hq
    have hnil : filteredEvents events onIds offIds = [] :=
      filtered_nil_of_both hp hq
    refine ⟨hnil, ?_, ?_⟩
    · unfold queryComboRows
      have hrows : (roster.filterMap fun t =>
          if t.id ∈ offIds then none
          else if playerTimeQ events onIds offIds t.id / 60 < 5 then none
          else some (comboRow events onIds offIds t)) = [] := by
        rw [List.filterMap_eq_nil_iff]
        intro t _
        by_cases h1 : t.id ∈ offIds
        · rw [if_pos h1]
        · have hlt : playerTimeQ events onIds offIds t.id / 60 < 5 := by
            rw [playerTimeQ_eq_zero_of_nil hnil]
            norm_num
          rw [if_neg h1, if_pos hlt]
      rw [hrows]
      rfl
    · unfold calcPlayerStats
      rw [List.filterMap_eq_nil_iff]
      intro t _
      have hlt : playerTimeQ events onIds offIds t.id / 60 < 5 := by
        rw [playerTimeQ_eq_zero_of_nil hnil]
        norm_num
      rw [if_pos hlt]

/-- A stored event used by concrete query-engine witnesses. -/
def wEvent : Event :=
  { player_id := 1, lineup := [1, 2, 3, 4, 5], stats := [], time := 600,
    is_team_stat := false, game_id := "g1" }

/-- Roster entry of the event's player. -/
def wT1 : RosterEntry := { id := 1, name := "Ant", pos := "G", num := "5" }

/-- A roster entry for a player with no events. -/
def wT9 : RosterEntry := { id := 9, name := "Nine", pos := "F", num := "9" }

/-- A two-man roster for query witnesses. -/
def wRoster : List RosterEntry := [wT1, wT9]

/-- Witness for C1: a disjoint filter `on = {1}`, `off = {9}` includes
the concrete event through the iff, and the overlapping filter
`on = off = {7}` yields empty results everywhere. -/
theorem filter_semantics_witness :
    passFilter [1] [9] wEvent = true
    ∧ filteredEvents [wEvent] [7] [7] = []
    ∧ queryComboRows [wEvent] wRoster [7] [7] = []
    ∧ calcPlayerStats [wEvent] wRoster [7] [7] 5 = [] :=
  ⟨(filter_semantics [1] [9] wEvent [wEvent] wRoster 7).1.mpr
    (by refine ⟨?_, ?_⟩ <;> decide),
   ((filter_semantics [7] [7] wEvent [wEvent] wRoster 7).2
      (by decide) (by decide)).1,
   ((filter_semantics [7] [7] wEvent [wEvent] wRoster 7).2
      (by decide) (by decide)).2.1,
   ((filter_semantics [7] [7] wEvent [wEvent] wRoster 7).2
      (by decide) (by decide)).2.2⟩

/-! ## C7: off-filtered players never appear in the results -/

/-- C7: a player named in the off filter never receives a result row —
`query_combo` skips such roster entries outright, and
`calculate_player_stats` (which has no such check) excludes them because
every stored event carries its player inside its own lineup, so an
off player accrues no qualifying minutes. -/
theorem off_player_excluded (events : List Event) (roster : List RosterEntry)
    (onIds offIds : List Nat) (P : Nat) (m : ℚ)
    (hP : P ∈ offIds) (hinv : ∀ e ∈ events, e.player_id ∈ e.lineup)
    (hm : 0 < m) :
    (∀ r ∈ queryComboRows events roster onIds offIds, r.pid ≠ P)
    ∧ ∀ r ∈ calcPlayerStats events roster onIds offIds m, r.pid ≠ P := by
  constructor
  · intro r hr
    unfold queryComboRows at hr
    rw [mem_sortDescBy, List.mem_filterMap] at hr
    obtain ⟨t, _, hsome⟩ := hr
    by_cases h1 : t.id ∈ offIds
    · rw [if_pos h1] at hsome
      cases hsome
    · rw [if_neg h1] at hsome
      split at hsome
      · cases hsome
      · injection hsome with hsome
        intro hc
        apply h1
        rw [← hsome] at hc
        have : t.id = P := hc
        rw [this]
        exact hP
  · intro r hr
    unfold calcPlayerStats at hr
    rw [List.mem_filterMap] at hr
    obtain ⟨t, _, hsome⟩ := hr
    split at hsome
    · cases hsome
    · next hge =>
      injection hsome with hsome
      intro hc
      apply hge
      have ht : t.id = P := by rw [← hsome] at hc; exact hc
      rw [ht, playerTimeQ_off_zero hP hinv]
      simpa using hm

/-- Witness for C7: with `off = {9}` the qualifying row of player 1 is
not a row for player 9. -/
theorem off_player_excluded_witness :
    (comboRow [wEvent] [] [9] wT1).pid ≠ 9 :=
  (off_player_excluded [wEvent] wRoster [] [9] 9 5 (by decide) (by decide)
    (by norm_num)).1 (comboRow [wEvent] [] [9] wT1) (by
      have ht : playerTimeQ [wEvent] [] [9] wT1.id = 600 := by
        norm_num [playerTimeQ, filteredEvents, passFilter, wEvent, wT1]
      have hq : queryComboRows [wEvent] wRoster [] [9]
          = [comboRow [wEvent] [] [9] wT1] := by
        unfold queryComboRows wRoster
        rw [List.filterMap_cons, List.filterMap_cons, List.filterMap_nil]
        rw [if_neg (by decide : ¬ wT1.id ∈ [9]), if_neg (by rw [ht]; norm_num),
            if_pos (by decide : wT9.id ∈ [9])]
        rfl
      rw [hq]
      exact List.mem_singleton.mpr rfl)

/-! ## C8: zero team-possession denominator gives zero usage -/

/-- Executable floor of the rational zero. -/
lemma ratFloor_zero : ratFloor 0 = 0 := by
  norm_num [ratFloor]

/-- Python-style banker's rounding of 0 is 0. -/
lemma pyRound1_zero : pyRound1 0 = 0 := by
  unfold pyRound1
  norm_num [ratFloor_zero]

/-- C8: whenever the team-possession denominator accumulated for a
player is zero, the usage rate computed for that player's row is
exactly 0 in both query paths, and both `calculate_usg` variants return
0 outright on a zero denominator instead of dividing. -/
theorem usg_zero_denominator (events : List Event) (roster : List RosterEntry)
    (onIds offIds : List Nat) (P : Nat)
    (h : teamStatQ events onIds offIds P .FGA
        + (44 / 100) * teamStatQ events onIds offIds P .FTA
        + teamStatQ events onIds offIds P .TOV = 0) :
    (∀ r ∈ queryComboRows events roster onIds offIds, r.pid = P → r.usg = 0)
    ∧ (∀ r ∈ calcPlayerStats events roster onIds offIds 5, r.pid = P → r.usg = 0)
    ∧ ∀ pf pt pv tf tt tv : ℚ, tf + (44 / 100) * tt + tv = 0 →
        calculate_usg pf pt pv tf tt tv = 0
        ∧ calculate_usg_api pf pt pv tf tt tv = 0 := by
  have hpure : ∀ pf pt pv tf tt tv : ℚ, tf + (44 / 100) * tt + tv = 0 →
      calculate_usg pf pt pv tf tt tv = 0
      ∧ calculate_usg_api pf pt pv tf tt tv = 0 := by
    intro pf pt pv tf tt tv h0
    constructor
    · unfold calculate_usg
      rw [if_pos (le_of_eq h0)]
    · unfold calculate_usg_api
      rw [if_pos h0]
  refine ⟨?_, ?_, hpure⟩
  · intro r hr hrP
    unfold queryComboRows at hr
    rw [mem_sortDescBy, List.mem_filterMap] at hr
    obtain ⟨t, _, hsome⟩ := hr
    by_cases h1 : t.id ∈ offIds
    · rw [if_pos h1] at hsome; cases hsome
    · rw [if_neg h1] at hsome
      split at hsome
      · cases hsome
      · injection hsome with hsome
        subst hsome
        have ht : t.id = P := hrP
        show calculate_usg _ _ _ _ _ _ = 0
        rw [ht]
        exact (hpure _ _ _ _ _ _ h).1
  · intro r hr hrP
    unfold calcPlayerStats at hr
    rw [List.mem_filterMap] at hr
    obtain ⟨t, _, hsome⟩ := hr
    split at hsome
    · cases hsome
    · injection hsome with hsome
      subst hsome
      have ht : t.id = P := hrP
      show pyRound1 (calculate_usg_api _ _ _ _ _ _) = 0
      rw [ht]
      rw [(hpure _ _ _ _ _ _ h).2]
      exact pyRound1_zero

/-- Witness for C8: a zero denominator gives zero usage in both
`calculate_usg` variants, applied through the claim theorem. -/
theorem usg_zero_denominator_witness :
    calculate_usg 3 2 1 0 0 0 = 0 ∧ calculate_usg_api 3 2 1 0 0 0 = 0 :=
  (usg_zero_denominator [] [] [] [] 1
    (by norm_num [teamStatQ, filteredEvents])).2.2 3 2 1 0 0 0 (by norm_num)

/-! ## C9: name resolution in the API server -/

/-- A roster whose first entry substring-matches a query that exactly
matches a later entry. -/
def cxRoster : List RosterEntry :=
  [{ id := 1, name := "Bob Smithson", pos := "", num := "" },
   { id := 2, name := "Smith", pos := "", num := "" }]

/-- The single roster entry of the counterexample cache. -/
def cxT1 : RosterEntry := { id := 1, name := "Anthony Edwards", pos := "G", num := "5" }

/-- A loaded cache with one qualifying player, used to show that an
unresolvable name is silently dropped rather than rejected. -/
def cxCache : Cache :=
  { team_id := 10, games_processed := 3, roster := [cxT1], events := [wEvent] }

/-- Counterexample to C9 against the API server: `get_player_id`
returns the first substring match (id 1) even though a case-insensitive
exact match (id 2) exists, and a query naming an unresolvable off
player returns the same non-empty result as the query without that
name — it is not rejected. -/
theorem name_resolution_counterexample :
    get_player_id_api "smith" cxRoster = some 1
    ∧ (∃ t ∈ cxRoster, t.id = 2 ∧ asciiLower t.name = asciiLower "smith")
    ∧ query_stats cxCache [] ["Rudy Gobert"] = query_stats cxCache [] []
    ∧ (query_stats cxCache [] ["Rudy Gobert"]).players ≠ [] := by
  have h3 : query_stats cxCache [] ["Rudy Gobert"] = query_stats cxCache [] [] := by
    have e1 : resolveIds ["Rudy Gobert"] cxCache.roster
        = resolveIds [] cxCache.roster := by decide
    have e2 : resolveNames ["Rudy Gobert"] cxCache.roster
        = resolveNames [] cxCache.roster := by decide
    simp only [query_stats, e1, e2]
  refine ⟨by decide, by decide, h3, ?_⟩
  rw [h3]
  have hp : (query_stats cxCache [] []).players
      = sortDescBy (fun r => r.min)
        (calcPlayerStats cxCache.events cxCache.roster
          (resolveIds [] cxCache.roster) (resolveIds [] cxCache.roster) 5) := rfl
  rw [hp, show resolveIds [] cxCache.roster = [] from rfl]
  have ht : playerTimeQ cxCache.events [] [] cxT1.id = 600 := by
    norm_num [playerTimeQ, filteredEvents, passFilter, cxCache, wEvent, cxT1]
  have hc : calcPlayerStats cxCache.events cxCache.roster [] [] 5
      = [apiRow cxCache.events [] [] cxT1] := by
    unfold calcPlayerStats
    rw [show cxCache.roster = [cxT1] from rfl]
    rw [List.filterMap_cons, List.filterMap_nil]
    rw [if_neg (by rw [ht]; norm_num)]
  rw [hc]
  simp [sortDescBy, insertDescBy]

/-- C9 as amended, matching `main.py`: a supplied player name is
resolved to the first roster entry whose lowercased name contains the
lowercased query as a substring (no exact-match priority), and a name
that resolves to no identifier is silently dropped — the query result
equals the result computed from the remaining names, with no error. -/
theorem name_resolution_amended (cache : Cache) (plOn plOff : List String)
    (nm : String) (h : get_player_id_api nm cache.roster = none) :
    query_stats cache (nm :: plOn) plOff = query_stats cache plOn plOff
    ∧ query_stats cache plOn (nm :: plOff) = query_stats cache plOn plOff
    ∧ ∀ (roster : List RosterEntry) (p : Nat),
        get_player_id_api nm roster = some p →
        ∃ t ∈ roster, t.id = p ∧
          strHas (asciiLower t.name) (asciiLower nm) = true := by
  have hids : ∀ l : List String,
      resolveIds (nm :: l) cache.roster = resolveIds l cache.roster := by
    intro l
    unfold resolveIds
    rw [List.foldl_cons]
    simp only [h]
  have hnames : ∀ l : List String,
      resolveNames (nm :: l) cache.roster = resolveNames l cache.roster := by
    intro l
    unfold resolveNames
    rw [List.foldl_cons]
    simp only [h]
  refine ⟨?_, ?_, ?_⟩
  · simp only [query_stats, hids, hnames]
  · simp only [query_stats, hids, hnames]
  · intro roster p hp
    unfold get_player_id_api at hp
    cases hf : roster.find? (fun q => strHas (asciiLower q.name) (asciiLower nm)) with
    | none => rw [hf] at hp; cases hp
    | some t =>
      rw [hf] at hp
      injection hp with hp
      have hpred := List.find?_some hf
      exact ⟨t, List.mem_of_find?_eq_some hf, hp, hpred⟩

/-- Witness for the amended C9: the unresolvable name "Zzz" is dropped
and the query equals the unfiltered one. -/
theorem name_resolution_amended_witness :
    query_stats cxCache ["Zzz"] [] = query_stats cxCache [] [] :=
  (name_resolution_amended cxCache [] [] "Zzz" (by decide)).1

/-! ## C6: update idempotence on the events array -/

lemma hasGame_append (l r : List Event) (gid : String) :
    hasGame (l ++ r) gid = (hasGame l gid || hasGame r gid) := by
  unfold hasGame
  rw [List.any_append]

lemma newEventsFor_gameId {tid : Nat} {feed : String → GameFeed}
    {gid : String} {e : Event} (h : e ∈ newEventsFor tid feed gid) :
    e.game_id = gid := by
  unfold newEventsFor at h
  split at h
  · split at h
    · cases h
    · rw [List.mem_map] at h
      obtain ⟨x, _, rfl⟩ := h
      rfl
  · cases h

lemma update_cache_no_new {tid : Nat} {registry : List (Nat × String)}
    {schedule : List String} {feed : String → GameFeed} {c : Cache}
    (h : schedule.isEmpty = true ∨
      (schedule.filter (fun gid => !hasGame c.events gid)).isEmpty = true) :
    update_cache tid registry schedule feed c = c := by
  unfold update_cache
  rcases h with h | h
  · rw [if_pos h]
  · by_cases hs : schedule.isEmpty = true
    · rw [if_pos hs]
    · rw [if_neg hs]
      dsimp only
      rw [if_pos h]

lemma update_cache_events_new {tid : Nat} {registry : List (Nat × String)}
    {schedule : List String} {feed : String → GameFeed} {c : Cache}
    (hs : ¬schedule.isEmpty = true)
    (h1 : ¬(schedule.filter (fun gid => !hasGame c.events gid)).isEmpty = true) :
    (update_cache tid registry schedule feed c).events
      = c.events ++ ((schedule.filter (fun gid => !hasGame c.events gid)).map
          (newEventsFor tid feed)).flatten := by
  unfold update_cache
  rw [if_neg hs]
  dsimp only
  rw [if_neg h1]

/-- C6: running `update_cache` a second time with the same schedule and
feeds leaves the snapshot's `events` array identical — every schedule
game either already contributed events (and is skipped by the game-id
diff) or contributes none again. -/
theorem update_idempotent (tid : Nat) (registry : List (Nat × String))
    (schedule : List String) (feed : String → GameFeed) (c : Cache) :
    (update_cache tid registry schedule feed
      (update_cache tid registry schedule feed c)).events
    = (update_cache tid registry schedule feed c).events := by
  by_cases hs : schedule.isEmpty = true
  · simp only [update_cache_no_new (Or.inl hs)]
  · by_cases h1 : (schedule.filter (fun gid => !hasGame c.events gid)).isEmpty = true
    · simp only [update_cache_no_new (Or.inr h1)]
    · have hc1 : (update_cache tid registry schedule feed c).events
          = c.events ++ ((schedule.filter (fun gid => !hasGame c.events gid)).map
              (newEventsFor tid feed)).flatten :=
        update_cache_events_new hs h1
      have hkey : ∀ gid ∈ schedule,
          hasGame (update_cache tid registry schedule feed c).events gid = false →
          newEventsFor tid feed gid = [] := by
        intro gid hg hnot
        by_contra hne
        obtain ⟨e, he⟩ := List.exists_mem_of_ne_nil _ hne
        rw [hc1, hasGame_append, Bool.or_eq_false_iff] at hnot
        have hgidmem : gid ∈ schedule.filter (fun g => !hasGame c.events g) := by
          rw [List.mem_filter]
          exact ⟨hg, by rw [hnot.1]; rfl⟩
        have hmemNE : e ∈ ((schedule.filter (fun g => !hasGame c.events g)).map
            (newEventsFor tid feed)).flatten := by
          rw [List.mem_flatten]
          exact ⟨newEventsFor tid feed gid, List.mem_map_of_mem _ hgidmem, he⟩
        have hhas : hasGame ((schedule.filter (fun g => !hasGame c.events g)).map
            (newEventsFor tid feed)).flatten gid = true := by
          unfold hasGame
          rw [List.any_eq_true]
          refine ⟨e, hmemNE, ?_⟩
          rw [newEventsFor_gameId he]
          exact beq_self_eq_true gid
        rw [hhas] at hnot
        cases hnot.2
      by_cases h2 : (schedule.filter (fun gid =>
          !hasGame (update_cache tid registry schedule feed c).events gid)).isEmpty = true
      · rw [update_cache_no_new (Or.inr h2)]
      · rw [update_cache_events_new hs h2]
        have hflat : ((schedule.filter (fun gid =>
            !hasGame (update_cache tid registry schedule feed c).events gid)).map
              (newEventsFor tid feed)).flatten = [] := by
          rw [List.flatten_eq_nil_iff]
          intro x hx
          rw [List.mem_map] at hx
          obtain ⟨gid, hgid, rfl⟩ := hx
          rw [List.mem_filter] at hgid
          refine hkey gid hgid.1 ?_
          have hb := hgid.2
          rw [Bool.not_eq_true'] at hb
          exact hb
        rw [hflat, List.append_nil]

end OnOff
